import Mathlib

/-!
Verification development for the time-tracker application.

The definitions below are a shallow embedding of the elapsed-time
reconciliation engine: the `ActiveStopwatch` component (its anchor
resolution, displayed-total computation, and the pause / resume / finish /
cancel transitions together with the patches they persist), the
finalize-on-unload API route, the `formatDuration` helper, and the
`HistoryTable` query cache.

Modelling conventions:
- Wall-clock instants and millisecond amounts are `Int` (JS numbers used as
  integer milliseconds; `Math.floor` on such a value is the identity).
- A timestamp column that may be absent, null, or non-parseable (JS
  `new Date(v).getTime()` returning `NaN`) is an `Option Int`; `none` covers
  the absent / null / `NaN` cases alike.
- The remote store's `update(...).eq(...)`/`.in(...)` call is modelled by a
  boolean row filter plus a patch application on a matching row.
-/

namespace TimeTracker

/-- Task status, from `src/app/types/task.ts` (`TaskStatus`). -/
inductive TaskStatus
  | running
  | paused
  | finished
  | canceled
deriving DecidableEq, Repr

/-- A task row, from `src/app/types/task.ts` (`TaskRow`, the variant with the
pause-tracking columns). Timestamp columns are modelled by their parsed
millisecond value (`none` = null / absent / non-parseable). -/
structure TaskRow where
  id : String
  project_id : String
  user_id : String
  title : String
  notes : Option String
  status : TaskStatus
  started_at : Option Int
  ended_at : Option Int
  accumulated_ms : Int
  duration_ms : Int
  pause_count : Option Int
  paused_ms : Option Int
  paused_at : Option Int
  created_at : Option Int
  updated_at : Option Int
deriving DecidableEq, Repr

/-- The update payload sent to the remote store by one transition.  A field
that is `none` is absent from the payload and leaves the column untouched.
For `paused_at`, `some none` means the payload explicitly sets the column to
null. Every payload in the source carries a `status` field. -/
structure Patch where
  status : TaskStatus
  accumulated_ms : Option Int := none
  duration_ms : Option Int := none
  pause_count : Option Int := none
  paused_ms : Option Int := none
  paused_at : Option (Option Int) := none
  ended_at : Option Int := none
deriving DecidableEq, Repr

/-- Applying an update payload to a row (the remote store's column-wise
assignment for an `update` call whose filter matched this row). -/
def applyPatch (p : Patch) (row : TaskRow) : TaskRow :=
  { row with
    status := p.status
    accumulated_ms := p.accumulated_ms.getD row.accumulated_ms
    duration_ms := p.duration_ms.getD row.duration_ms
    pause_count := match p.pause_count with
      | some v => some v
      | none => row.pause_count
    paused_ms := match p.paused_ms with
      | some v => some v
      | none => row.paused_ms
    paused_at := p.paused_at.getD row.paused_at
    ended_at := match p.ended_at with
      | some v => some v
      | none => row.ended_at }

/-- The anchor persisted in local storage under
`ACTIVE_TASK_RUNNING_START_KEY` (`writeStoredRunningStartMs`). -/
structure Anchor where
  taskId : String
  runningStartMs : Int
deriving DecidableEq, Repr

/-- `readStoredRunningStartMs` from `ActiveStopwatch`: the stored value is
used only when it parses and names this task's id (`none` also covers a
missing slot, a JSON parse failure, and a non-numeric `runningStartMs`). -/
def readStoredRunningStartMs (anchor : Option Anchor) (taskId : String) :
    Option Int :=
  match anchor with
  | none => none
  | some a => if a.taskId == taskId then some a.runningStartMs else none

/-- The running-start resolution effect of `ActiveStopwatch` (the
`useEffect` that assigns `runningStartRef.current` while `status` is
running): the stored anchor if it names this task, else `updated_at` when it
parses, else `started_at` when it parses, else `nowMs()`. -/
def resolveRunningStart (anchor : Option Anchor) (task : TaskRow)
    (now : Int) : Int :=
  match readStoredRunningStartMs anchor task.id with
  | some s => s
  | none =>
    match task.updated_at with
    | some updatedAtMs => updatedAtMs
    | none =>
      match task.started_at with
      | some startedAtMs => startedAtMs
      | none => now

/-- The displayed total of `ActiveStopwatch` (the `totalMs` memo: while
running, `accumulatedMs + (nowMs() - runningStartRef.current)`; otherwise the
frozen `accumulatedMs`), evaluated on a fresh task snapshot. -/
def displayedTotalMs (anchor : Option Anchor) (task : TaskRow)
    (now : Int) : Int :=
  if task.status == .running then
    task.accumulated_ms + (now - resolveRunningStart anchor task now)
  else
    task.accumulated_ms

/-- The running-start value in the words of the specification: the Anchor's
stored value when the Anchor names this task's id, otherwise the parsed
`updated_at`, then the parsed `started_at`, then `now` itself. Written from
the spec for comparison with `resolveRunningStart`. -/
def runningStartSpec (anchor : Option Anchor) (task : TaskRow)
    (now : Int) : Int :=
  match anchor with
  | some a =>
    if a.taskId = task.id then a.runningStartMs
    else task.updated_at.getD (task.started_at.getD now)
  | none => task.updated_at.getD (task.started_at.getD now)

/-- The component-local status of `ActiveStopwatch` (`type Status =
"running" | "paused"`). -/
inductive LiveStatus
  | running
  | paused
deriving DecidableEq, Repr

/-- The in-memory state of `ActiveStopwatch` that the transitions read and
write: the `status`, `accumulatedMs`, `pauseCount`, `pausedMs` state hooks
and the `runningStartRef` / `pausedAtRef` refs. -/
structure StopwatchState where
  status : LiveStatus
  accumulatedMs : Int
  pauseCount : Int
  pausedMs : Int
  runningStart : Int
  pausedAt : Option Int
deriving DecidableEq, Repr

/-- The `pause` handler of `ActiveStopwatch`: a no-op unless running;
otherwise it closes the current running slice into `accumulatedMs`, bumps
`pauseCount`, records the pause start, and persists the corresponding
payload. Returns the new local state and the persisted payload (`none` when
the guard rejected the event). -/
def pauseT (s : StopwatchState) (now : Int) :
    StopwatchState × Option Patch :=
  if s.status ≠ .running then (s, none)
  else
    let sliceMs := now - s.runningStart
    let nextAccum := s.accumulatedMs + sliceMs
    let nextPauseCount := s.pauseCount + 1
    let pauseStartedMs := now
    ({ s with
        status := .paused
        accumulatedMs := nextAccum
        pauseCount := nextPauseCount
        pausedAt := some pauseStartedMs },
     some { status := .paused
            accumulated_ms := some nextAccum
            pause_count := some nextPauseCount
            paused_ms := some s.pausedMs
            paused_at := some (some pauseStartedMs) })

/-- The `resume` handler of `ActiveStopwatch`: a no-op unless paused;
otherwise it folds the current pause slice into `pausedMs`, restarts the
running slice at `now`, clears `pausedAtRef`, and persists the payload
(`accumulated_ms` kept as-is). -/
def resumeT (s : StopwatchState) (now : Int) :
    StopwatchState × Option Patch :=
  if s.status ≠ .paused then (s, none)
  else
    let pauseSliceMs := match s.pausedAt with
      | some p => now - p
      | none => 0
    let nextPausedMs := s.pausedMs + pauseSliceMs
    ({ s with
        status := .running
        pausedMs := nextPausedMs
        runningStart := now
        pausedAt := none },
     some { status := .running
            accumulated_ms := some s.accumulatedMs
            paused_ms := some nextPausedMs
            paused_at := some none })

/-- The `finish` handler of `ActiveStopwatch`: the final total is
`accumulatedMs` plus the open running slice when currently running; the open
pause slice is folded into `pausedMs` when currently paused; it persists
`status=finished`, `ended_at=now`, `duration_ms` and `accumulated_ms` both
equal to the final total, and `paused_at=null`. -/
def finishT (s : StopwatchState) (now : Int) : StopwatchState × Patch :=
  let finalMs :=
    if s.status == .running then s.accumulatedMs + (now - s.runningStart)
    else s.accumulatedMs
  let pauseSliceMs :=
    if s.status == .paused then
      match s.pausedAt with
      | some p => now - p
      | none => 0
    else 0
  let finalPausedMs := s.pausedMs + pauseSliceMs
  ({ s with pausedMs := finalPausedMs },
   { status := .finished
     ended_at := some now
     duration_ms := some finalMs
     accumulated_ms := some finalMs
     paused_ms := some finalPausedMs
     paused_at := some none })

/-- The `cancel` handler of `ActiveStopwatch`: persists `status=canceled`,
`ended_at=now`, `duration_ms=0`, `accumulated_ms=0`, the finalized
`paused_ms`, and `paused_at=null`, regardless of the prior local state. -/
def cancelT (s : StopwatchState) (now : Int) : StopwatchState × Patch :=
  let pauseSliceMs :=
    if s.status == .paused then
      match s.pausedAt with
      | some p => now - p
      | none => 0
    else 0
  let finalPausedMs := s.pausedMs + pauseSliceMs
  ({ s with pausedMs := finalPausedMs },
   { status := .canceled
     ended_at := some now
     duration_ms := some 0
     accumulated_ms := some 0
     paused_ms := some finalPausedMs
     paused_at := some none })

/-- The row filter of the client-side `persist` helper in
`ActiveStopwatch`: `.update(patch).eq("id", task.id)` — the row is selected
by id alone. -/
def persistFilter (taskId : String) (row : TaskRow) : Bool :=
  row.id == taskId

/-- The remote effect of the client-side `persist` call on one stored row:
the patch is applied exactly to the rows matching `persistFilter`. -/
def applyPersist (taskId : String) (p : Patch) (row : TaskRow) : TaskRow :=
  if persistFilter taskId row then applyPatch p row else row

/-- The update payload of the finalize-on-unload API route (`POST`):
`status=finished`, `ended_at=now`, and `duration_ms` and `accumulated_ms`
both set to `Math.max(0, Math.floor(clientAccumulatedMs))`. -/
def finalizePatch (now : Int) (clientAccumulatedMs : Int) : Patch :=
  { status := .finished
    ended_at := some now
    duration_ms := some (max 0 clientAccumulatedMs)
    accumulated_ms := some (max 0 clientAccumulatedMs) }

/-- The row filter of the finalize route:
`.eq("id", body.taskId).in("status", ["running", "paused"])`. -/
def finalizeFilter (taskId : String) (row : TaskRow) : Bool :=
  row.id == taskId &&
    (row.status == .running || row.status == .paused)

/-- The remote effect of one finalize-route call on one stored row. -/
def applyFinalize (taskId : String) (now : Int) (clientAccumulatedMs : Int)
    (row : TaskRow) : TaskRow :=
  if finalizeFilter taskId row then
    applyPatch (finalizePatch now clientAccumulatedMs) row
  else row

/-- Applying an alternating pause / resume history: each pair `(p, q)` is one
pause at time `p` followed by one resume at time `q`. -/
def runCycles (s : StopwatchState) : List (Int × Int) → StopwatchState
  | [] => s
  | (p, q) :: rest => runCycles (resumeT (pauseT s p).1 q).1 rest

/-- Applying an optional trailing pause (the history may leave the task
paused at the moment of finishing). -/
def afterOptionalPause (s : StopwatchState) :
    Option Int → StopwatchState
  | none => s
  | some p => (pauseT s p).1

/-- The sum of the durations of all running slices, in the words of the
specification: the first slice starts at `start`; each pair `(p, q)` ends a
slice at `p` and starts the next at `q`; a trailing pause at `p` ends the
last slice there, and otherwise the still-open slice ends at the finish
instant `T`. Written from the spec for comparison with the persisted
`accumulated_ms`. -/
def runningSliceSum (start : Int) :
    List (Int × Int) → Option Int → Int → Int
  | [], none, T => T - start
  | [], some p, _ => p - start
  | (p, q) :: rest, lastPause, T =>
    (p - start) + runningSliceSum q rest lastPause T

/-- The contribution of the closed pause / resume cycles to
`accumulatedMs` (helper for the slice-sum bookkeeping). -/
def cyclesAccum (start : Int) : List (Int × Int) → Int
  | [] => 0
  | (p, q) :: rest => (p - start) + cyclesAccum q rest

/-- The start instant of the running slice left open after the closed
cycles (helper for the slice-sum bookkeeping). -/
def lastResumeStart (start : Int) : List (Int × Int) → Int
  | [] => start
  | (_, q) :: rest => lastResumeStart q rest

/-- JS `String.prototype.padStart`: left-pad with `c` up to length `n`. -/
def jsPadStart (s : String) (n : Nat) (c : Char) : String :=
  if n ≤ s.length then s
  else String.mk (List.replicate (n - s.length) c) ++ s

/-- `formatDuration` from `src/app/lib/time.ts`: clamp
`Math.floor(ms / 1000)` at zero, split into hours / minutes / seconds, pad
each to two digits, and join with ":". (`Int.fdiv` is JS `Math.floor` of the
real quotient; `Int.toNat` realizes the `Math.max(0, _)` clamp.) -/
def formatDuration (ms : Int) : String :=
  let totalSeconds : Nat := (max 0 (Int.fdiv ms 1000)).toNat
  let h := totalSeconds / 3600
  let m := (totalSeconds % 3600) / 60
  let s := totalSeconds % 60
  String.intercalate ":"
    (([h, m, s].map (fun v => jsPadStart (toString v) 2 '0')))

/-- An HH:MM:SS clock string with each field zero-padded to two digits,
computed from a total-seconds count. Written from the claim's words for
comparison with `formatDuration`. -/
def clockDisplaySpec (totalSeconds : Nat) : String :=
  jsPadStart (toString (totalSeconds / 3600)) 2 '0' ++ ":" ++
    jsPadStart (toString ((totalSeconds % 3600) / 60)) 2 '0' ++ ":" ++
    jsPadStart (toString (totalSeconds % 60)) 2 '0'

/-- A cached query result of `HistoryTable` (`{ rows, total }`). -/
structure CacheEntry where
  rows : List TaskRow
  total : Int
deriving DecidableEq, Repr

/-- The read-path caching state of `HistoryTable`: `cacheRef` (newest entry
first; lookup takes the first match), `inFlightRef`, and
`activeRequestRef`. -/
structure CacheState where
  cache : List (String × CacheEntry)
  inFlight : List String
  activeRequest : Option String
deriving DecidableEq, Repr

/-- `getCacheKey` from `HistoryTable`: null without a project, otherwise the
template string over user, project, page, refresh counter and range key. -/
def getCacheKey (userId : String) (projectId : Option String)
    (page refreshKey : Nat) (rangeKey : String) : Option String :=
  match projectId with
  | none => none
  | some pid =>
    some (userId ++ ":" ++ pid ++ ":" ++ toString page ++ ":" ++
      toString refreshKey ++ ":" ++ rangeKey)

/-- What the synchronous prefix of `load` decided to do. -/
inductive LoadAction
  | emptyProject
  | unavailable
  | servedFromCache (entry : CacheEntry)
  | yielded
  | fetchIssued
deriving DecidableEq, Repr

/-- The synchronous prefix of `load` in `HistoryTable`, up to the remote
read: bail out without a project or with the table unavailable; serve a
cache hit without fetching; yield when the key is already in flight; and
otherwise mark the key in flight, record it as the active request, and issue
the read. -/
def loadStart (st : CacheState) (userId : String)
    (projectId : Option String) (page refreshKey : Nat) (rangeKey : String)
    (tableUnavailable : Bool) : LoadAction × CacheState :=
  if projectId.isNone then
    (.emptyProject, { st with activeRequest := none })
  else if tableUnavailable then
    (.unavailable, { st with activeRequest := none })
  else
    match getCacheKey userId projectId page refreshKey rangeKey with
    | none => (.fetchIssued, st)
    | some cacheKey =>
      match st.cache.lookup cacheKey with
      | some cached =>
        (.servedFromCache cached, { st with activeRequest := none })
      | none =>
        if st.inFlight.contains cacheKey then (.yielded, st)
        else
          (.fetchIssued,
           { st with
              inFlight := cacheKey :: st.inFlight
              activeRequest := some cacheKey })

/-- The settle suffix of `load` for a successful read: an abandoned request
(`activeRequestRef` moved on) only clears its in-flight marker; the active
request clears the marker, stores the result under its key, and resets the
active-request slot. -/
def loadSettleSuccess (st : CacheState) (cacheKey : String)
    (result : CacheEntry) : CacheState :=
  if st.activeRequest ≠ some cacheKey then
    { st with inFlight := st.inFlight.erase cacheKey }
  else
    { st with
        inFlight := st.inFlight.erase cacheKey
        cache := (cacheKey, result) :: st.cache
        activeRequest := none }

/-- The empty read-path caching state (fresh component mount). -/
def emptyCache : CacheState :=
  { cache := [], inFlight := [], activeRequest := none }

/-- A concrete stored row used as the base of the concrete test data. -/
def baseRow : TaskRow :=
  { id := "t1"
    project_id := "p1"
    user_id := "u1"
    title := "Task"
    notes := none
    status := .running
    started_at := some 0
    ended_at := none
    accumulated_ms := 0
    duration_ms := 0
    pause_count := some 0
    paused_ms := some 0
    paused_at := none
    created_at := some 0
    updated_at := some 0 }

/-- Concrete running snapshot for the elapsed-time model. -/
def C1task : TaskRow :=
  { baseRow with accumulated_ms := 500, updated_at := some 7000 }

/-- Concrete local state: paused at instant 5000 with 3000ms accumulated. -/
def C8state : StopwatchState :=
  { status := .paused
    accumulatedMs := 3000
    pauseCount := 1
    pausedMs := 0
    runningStart := 0
    pausedAt := some 5000 }

/-- Concrete fresh running state (task just created: nothing accumulated,
running slice anchored at 0). -/
def C2state : StopwatchState :=
  { status := .running
    accumulatedMs := 0
    pauseCount := 0
    pausedMs := 0
    runningStart := 0
    pausedAt := none }

/-- Concrete finished row that the client-side persist filter still
matches. -/
def C3row : TaskRow :=
  { baseRow with
      status := .finished
      ended_at := some 10
      accumulated_ms := 7
      duration_ms := 7
      updated_at := some 10 }

/-- Concrete fresh running state used to produce a pause payload. -/
def C3pauseState : StopwatchState :=
  { status := .running
    accumulatedMs := 0
    pauseCount := 0
    pausedMs := 0
    runningStart := 0
    pausedAt := none }

/-- The payload the pause transition persists from `C3pauseState` at
instant 100. -/
def C3patch : Patch :=
  { status := .paused
    accumulated_ms := some 100
    pause_count := some 1
    paused_ms := some 0
    paused_at := some (some 100) }

/-- Concrete running state whose slice anchor (1000) lies after the clock
(0): a rewound clock. -/
def C5state : StopwatchState :=
  { status := .running
    accumulatedMs := 0
    pauseCount := 0
    pausedMs := 0
    runningStart := 1000
    pausedAt := none }

/-- Concrete running row targeted by the finalize route. -/
def C6row : TaskRow :=
  { baseRow with accumulated_ms := 3000 }

/-- Concrete paused row (paused at instant 5000) targeted by the finalize
route. -/
def C9row : TaskRow :=
  { baseRow with
      status := .paused
      accumulated_ms := 3000
      pause_count := some 1
      paused_at := some 5000
      updated_at := some 5000 }

/-- A run of closed pause / resume cycles from a running state stays
running, adds each closed running slice to `accumulatedMs`, and leaves the
running slice anchored at the last resume instant. -/
theorem runCycles_running_spec (cycles : List (Int × Int)) :
    ∀ s : StopwatchState, s.status = .running →
      (runCycles s cycles).status = .running ∧
      (runCycles s cycles).accumulatedMs =
        s.accumulatedMs + cyclesAccum s.runningStart cycles ∧
      (runCycles s cycles).runningStart =
        lastResumeStart s.runningStart cycles := by
  induction cycles with
  | nil =>
    intro s h
    exact ⟨h, by simp [runCycles, cyclesAccum], by simp [runCycles, lastResumeStart]⟩
  | cons pq rest ih =>
    obtain ⟨p, q⟩ := pq
    intro s h
    have hstep : (resumeT (pauseT s p).1 q).1 =
        { status := .running
          accumulatedMs := s.accumulatedMs + (p - s.runningStart)
          pauseCount := s.pauseCount + 1
          pausedMs := s.pausedMs + (q - p)
          runningStart := q
          pausedAt := none } := by
      simp [pauseT, resumeT, h]
    have hrc : runCycles s ((p, q) :: rest) =
        runCycles (resumeT (pauseT s p).1 q).1 rest := rfl
    obtain ⟨ha, hb, hc⟩ := ih
      { status := .running
        accumulatedMs := s.accumulatedMs + (p - s.runningStart)
        pauseCount := s.pauseCount + 1
        pausedMs := s.pausedMs + (q - p)
        runningStart := q
        pausedAt := none } rfl
    rw [hrc, hstep]
    refine ⟨ha, ?_, ?_⟩
    · rw [hb]
      simp only [cyclesAccum]
      ring
    · rw [hc]
      simp only [lastResumeStart]

/-- The slice-sum bookkeeping: the spec-side sum of running-slice durations
is the closed-cycle contribution plus the final slice, which ends at the
trailing pause instant when there is one and at the finish instant
otherwise. -/
theorem runningSliceSum_decomp (cycles : List (Int × Int)) :
    ∀ (start : Int) (lastPause : Option Int) (T : Int),
      runningSliceSum start cycles lastPause T =
        cyclesAccum start cycles +
          (lastPause.getD T - lastResumeStart start cycles) := by
  induction cycles with
  | nil =>
    intro start lp T
    cases lp <;>
      simp [runningSliceSum, cyclesAccum, lastResumeStart]
  | cons pq rest ih =>
    obtain ⟨p, q⟩ := pq
    intro start lp T
    simp only [runningSliceSum, cyclesAccum, lastResumeStart]
    rw [ih]
    ring

/-- The finalize route's filter rejects every terminal row. -/
theorem finalizeFilter_eq_false_of_terminal (taskId : String)
    (row : TaskRow)
    (h : row.status = .finished ∨ row.status = .canceled) :
    finalizeFilter taskId row = false := by
  cases h with
  | inl h => simp [finalizeFilter, h]
  | inr h => simp [finalizeFilter, h]

/-- The finalize route leaves every terminal row untouched. -/
theorem applyFinalize_eq_of_terminal (taskId : String)
    (now clientAccumulatedMs : Int) (row : TaskRow)
    (h : row.status = .finished ∨ row.status = .canceled) :
    applyFinalize taskId now clientAccumulatedMs row = row := by
  simp [applyFinalize, finalizeFilter_eq_false_of_terminal taskId row h]

/-- C1: for every running task snapshot and wall-clock time `now`, the
displayed total equals `accumulated_ms + (now - runningStartMs)` where
`runningStartMs` is the anchor's stored value when the anchor names this
task's id, and otherwise falls back in order to the parsed `updated_at`,
then the parsed `started_at`, then `now` itself (a non-parseable timestamp
triggers the next fallback). -/
theorem C1_running_total_anchor_fallback (anchor : Option Anchor)
    (task : TaskRow) (now : Int) (hrun : task.status = .running) :
    displayedTotalMs anchor task now =
      task.accumulated_ms + (now - runningStartSpec anchor task now) := by
  unfold displayedTotalMs resolveRunningStart readStoredRunningStartMs
    runningStartSpec
  cases anchor with
  | none =>
    cases task.updated_at <;> cases task.started_at <;> simp [hrun]
  | some a =>
    by_cases h : a.taskId = task.id
    · simp [hrun, h]
    · cases htu : task.updated_at <;> cases hts : task.started_at <;>
        simp [hrun, h, htu, hts]

/-- Witness for C1 at a concrete running snapshot with no anchor. -/
theorem C1_witness :
    displayedTotalMs none C1task 10000 =
      C1task.accumulated_ms + (10000 - runningStartSpec none C1task 10000) :=
  C1_running_total_anchor_fallback none C1task 10000 (by rfl)

/-- C4: the cancel transition always persists `duration_ms = 0` and
`accumulated_ms = 0`, whatever local state any prior history produced. -/
theorem C4_cancel_zeroes_persisted_totals (s : StopwatchState) (now : Int) :
    (cancelT s now).2.duration_ms = some 0 ∧
    (cancelT s now).2.accumulated_ms = some 0 := by
  exact ⟨rfl, rfl⟩

/-- C8: resuming a paused task persists `status = running`, adds the
current pause slice `now - pausedAt` to `paused_ms`, sets `paused_at` to
null, and leaves `accumulated_ms` unchanged. -/
theorem C8_resume_patch (s : StopwatchState) (now pAt : Int)
    (hp : s.status = .paused) (ha : s.pausedAt = some pAt) :
    (resumeT s now).2 =
      some { status := .running
             accumulated_ms := some s.accumulatedMs
             paused_ms := some (s.pausedMs + (now - pAt))
             paused_at := some none } := by
  simp [resumeT, hp, ha]

/-- Witness for C8: resume at 7000 after a pause that began at 5000. -/
theorem C8_witness :
    (resumeT C8state 7000).2 =
      some { status := .running
             accumulated_ms := some C8state.accumulatedMs
             paused_ms := some (C8state.pausedMs + (7000 - 5000))
             paused_at := some none } :=
  C8_resume_patch C8state 7000 5000 (by rfl) (by rfl)

/-- C10: `formatDuration` renders the HH:MM:SS clock (two-digit zero-padded
fields) of `max 0 (floor (ms / 1000))` total seconds; in particular it never
displays a negative duration: a negative input renders like its clamp at
zero, namely as "00:00:00". -/
theorem C10_formatDuration_clock (ms : Int) :
    formatDuration ms =
      clockDisplaySpec (max 0 (Int.fdiv ms 1000)).toNat ∧
    formatDuration ms = formatDuration (max 0 ms) ∧
    (ms < 0 → formatDuration ms = "00:00:00") := by
  refine ⟨rfl, ?_, ?_⟩
  · show clockDisplaySpec (max 0 (Int.fdiv ms 1000)).toNat =
      clockDisplaySpec (max 0 (Int.fdiv (max 0 ms) 1000)).toNat
    rw [Int.fdiv_eq_ediv _ (by norm_num), Int.fdiv_eq_ediv _ (by norm_num)]
    congr 1
    omega
  · intro h
    show clockDisplaySpec (max 0 (Int.fdiv ms 1000)).toNat = "00:00:00"
    rw [Int.fdiv_eq_ediv _ (by norm_num)]
    have hz : (max 0 (ms / 1000)).toNat = 0 := by omega
    rw [hz]
    rfl

/-- Witness for C10: a negative elapsed value renders as "00:00:00". -/
theorem C10_witness : formatDuration (-5) = "00:00:00" :=
  (C10_formatDuration_clock (-5)).2.2 (by decide)

/-- C2: starting from a freshly running task, after any alternating pause /
resume history (closed cycles plus an optional trailing pause) the finish
transition persists `accumulated_ms` equal to the sum of the durations of
all running slices — the open slice up to the finish instant included when
still running — and persists `duration_ms` equal to it, independent of how
many cycles occurred. -/
theorem C2_finish_accumulates_running_slices (s0 : StopwatchState)
    (cycles : List (Int × Int)) (lastPause : Option Int) (T : Int)
    (hrun : s0.status = .running) (hacc : s0.accumulatedMs = 0) :
    (finishT (afterOptionalPause (runCycles s0 cycles) lastPause)
        T).2.accumulated_ms =
      some (runningSliceSum s0.runningStart cycles lastPause T) ∧
    (finishT (afterOptionalPause (runCycles s0 cycles) lastPause)
        T).2.duration_ms =
      (finishT (afterOptionalPause (runCycles s0 cycles) lastPause)
        T).2.accumulated_ms := by
  obtain ⟨ha, hb, hc⟩ := runCycles_running_spec cycles s0 hrun
  rw [runningSliceSum_decomp]
  cases lastPause with
  | none =>
    refine ⟨?_, rfl⟩
    simp [afterOptionalPause, finishT, ha, hb, hc, hacc]
  | some p =>
    refine ⟨?_, rfl⟩
    have hpause : (pauseT (runCycles s0 cycles) p).1.accumulatedMs =
        (runCycles s0 cycles).accumulatedMs +
          (p - (runCycles s0 cycles).runningStart) := by
      simp [pauseT, ha]
    have hpst : (pauseT (runCycles s0 cycles) p).1.status = .paused := by
      simp [pauseT, ha]
    simp [afterOptionalPause, finishT, hpst, hpause, hb, hc, hacc]

/-- Witness for C2: one pause (at 3000) / resume (at 5000) cycle, finish at
6000 while running: 3000 + 1000 = 4000ms persisted. -/
theorem C2_witness :
    (finishT (afterOptionalPause (runCycles C2state [(3000, 5000)]) none)
        6000).2.accumulated_ms =
      some (runningSliceSum C2state.runningStart [(3000, 5000)] none
        6000) ∧
    (finishT (afterOptionalPause (runCycles C2state [(3000, 5000)]) none)
        6000).2.duration_ms =
      (finishT (afterOptionalPause (runCycles C2state [(3000, 5000)]) none)
        6000).2.accumulated_ms :=
  C2_finish_accumulates_running_slices C2state [(3000, 5000)] none 6000
    (by rfl) (by rfl)

/-- Counterexample for C3: the client-side persist filter selects its row by
id alone, so a finished (terminal) row is matched by a later pause payload
and is in fact modified by it (even resurrected to paused). -/
theorem C3_counterexample :
    (pauseT C3pauseState 100).2 = some C3patch ∧
    persistFilter "t1" C3row = true ∧
    C3row.status = .finished ∧
    applyPersist "t1" C3patch C3row ≠ C3row ∧
    (applyPersist "t1" C3patch C3row).status = .paused := by decide

/-- C3 (amended): only the external-finalize write restricts its target to
non-terminal rows: its filter rejects every row whose status is finished or
canceled, so external finalize never modifies a terminal row. The
client-side persist filter matches on id alone. -/
theorem C3_finalize_filter_protects_terminal (taskId : String)
    (now clientAccumulatedMs : Int) (row : TaskRow)
    (hterm : row.status = .finished ∨ row.status = .canceled) :
    finalizeFilter taskId row = false ∧
    applyFinalize taskId now clientAccumulatedMs row = row :=
  ⟨finalizeFilter_eq_false_of_terminal taskId row hterm,
    applyFinalize_eq_of_terminal taskId now clientAccumulatedMs row hterm⟩

/-- Witness for the amended C3 at a concrete finished row. -/
theorem C3_witness :
    finalizeFilter "t1" C3row = false ∧
    applyFinalize "t1" 9000 1234 C3row = C3row :=
  C3_finalize_filter_protects_terminal "t1" 9000 1234 C3row
    (Or.inl (by rfl))

/-- C5: at the failing input — the clock rewound to 0 while the running
slice is anchored at 1000 — the pause transition persists
`accumulated_ms = -1000`, a negative value, with no clamp at the point of
persistence. -/
theorem C5_pause_persists_negative :
    ((pauseT C5state 0).2.bind Patch.accumulated_ms) = some (-1000) ∧
    ((-1000 : Int) < 0) := by decide

/-- Counterexample for C6: the first finalize call on a non-terminal task
does not set `duration_ms` to the caller's `clientAccumulatedMs` when that
value is negative — the route clamps it to zero. -/
theorem C6_counterexample :
    C6row.status = .running ∧
    (applyFinalize "t1" 9000 (-5) C6row).duration_ms = 0 ∧
    (applyFinalize "t1" 9000 (-5) C6row).duration_ms ≠ -5 := by decide

/-- C6 (amended): external finalize is idempotent — repeating it (with any
arguments) leaves the row as the first call left it, and a task already
terminal (for instance after a user-initiated finish) is left untouched —
while the first call on a matching non-terminal row sets status=finished,
`ended_at=now`, and `duration_ms = accumulated_ms =
max 0 clientAccumulatedMs`. -/
theorem C6_finalize_idempotent (taskId : String) (now c : Int)
    (row : TaskRow) :
    (∀ now2 c2, applyFinalize taskId now2 c2
        (applyFinalize taskId now c row) =
      applyFinalize taskId now c row) ∧
    ((row.status = .finished ∨ row.status = .canceled) →
      applyFinalize taskId now c row = row) ∧
    (row.id = taskId → (row.status = .running ∨ row.status = .paused) →
      (applyFinalize taskId now c row).status = .finished ∧
      (applyFinalize taskId now c row).ended_at = some now ∧
      (applyFinalize taskId now c row).duration_ms = max 0 c ∧
      (applyFinalize taskId now c row).accumulated_ms = max 0 c) := by
  refine ⟨?_, applyFinalize_eq_of_terminal taskId now c row, ?_⟩
  · intro now2 c2
    cases hf : finalizeFilter taskId row with
    | true =>
      have hfin : (applyFinalize taskId now c row).status = .finished := by
        simp [applyFinalize, hf, applyPatch, finalizePatch]
      exact applyFinalize_eq_of_terminal taskId now2 c2 _ (Or.inl hfin)
    | false =>
      have h1 : applyFinalize taskId now c row = row := by
        simp [applyFinalize, hf]
      rw [h1]
      simp [applyFinalize, hf]
  · intro hid hnt
    have hf : finalizeFilter taskId row = true := by
      cases hnt with
      | inl h => simp [finalizeFilter, hid, h]
      | inr h => simp [finalizeFilter, hid, h]
    simp [applyFinalize, hf, applyPatch, finalizePatch]

/-- Witness for the amended C6: first call finalizes a running row; the
second call (with different arguments) changes nothing. -/
theorem C6_witness :
    (applyFinalize "t1" 9500 77 (applyFinalize "t1" 9000 42 C6row) =
      applyFinalize "t1" 9000 42 C6row) ∧
    (applyFinalize "t1" 9000 42 C6row).status = .finished ∧
    (applyFinalize "t1" 9000 42 C6row).ended_at = some 9000 ∧
    (applyFinalize "t1" 9000 42 C6row).duration_ms = max 0 42 ∧
    (applyFinalize "t1" 9000 42 C6row).accumulated_ms = max 0 42 := by
  have h := C6_finalize_idempotent "t1" 9000 42 C6row
  have h3 := h.2.2 (by rfl) (Or.inl (by rfl))
  exact ⟨h.1 9500 77, h3.1, h3.2.1, h3.2.2.1, h3.2.2.2⟩

/-- C7: on a miss with no in-flight request the first caller issues the
read and marks the key in flight; a second caller with the identical
fingerprint in the same in-flight window yields without a duplicate read
(exactly one read for the two callers); a cache hit is served from the
stored entry with no read; a caller whose fingerprint is fresh — in
particular one formed after the refresh counter increments, which changes
the fingerprint string — issues a new read. -/
theorem C7_cache_dedup_invalidate (st : CacheState) (userId pid : String)
    (page refreshKey : Nat) (rangeKey : String) (k : String)
    (hk : getCacheKey userId (some pid) page refreshKey rangeKey = some k)
    (hmiss : st.cache.lookup k = none)
    (hnif : st.inFlight.contains k = false) :
    (loadStart st userId (some pid) page refreshKey rangeKey false).1 =
      .fetchIssued ∧
    (loadStart (loadStart st userId (some pid) page refreshKey rangeKey
        false).2 userId (some pid) page refreshKey rangeKey false).1 =
      .yielded ∧
    (∀ (st2 : CacheState) (entry : CacheEntry),
      st2.cache.lookup k = some entry →
      (loadStart st2 userId (some pid) page refreshKey rangeKey false).1 =
        .servedFromCache entry) ∧
    (∀ (st3 : CacheState) (k2 : String),
      getCacheKey userId (some pid) page (refreshKey + 1) rangeKey =
        some k2 →
      st3.cache.lookup k2 = none → st3.inFlight.contains k2 = false →
      (loadStart st3 userId (some pid) page (refreshKey + 1) rangeKey
          false).1 = .fetchIssued) ∧
    getCacheKey "u1" (some "p1") 0 1 "all" ≠
      getCacheKey "u1" (some "p1") 0 0 "all" := by
  have hnif2 : k ∉ st.inFlight := by simpa using hnif
  have h1 : loadStart st userId (some pid) page refreshKey rangeKey false =
      (.fetchIssued,
        { st with
            inFlight := k :: st.inFlight
            activeRequest := some k }) := by
    simp [loadStart, hk, hmiss, hnif2]
  refine ⟨by rw [h1], ?_, ?_, ?_, by decide⟩
  · rw [h1]
    simp [loadStart, hk, hmiss, List.contains_cons]
  · intro st2 entry h
    simp [loadStart, hk, h]
  · intro st3 k2 hk2 ha hb
    have hb2 : k2 ∉ st3.inFlight := by simpa using hb
    simp [loadStart, hk2, ha, hb2]

/-- Witness for C7: on a fresh cache the first caller fetches and the
second caller with the same fingerprint yields. -/
theorem C7_witness :
    (loadStart emptyCache "u1" (some "p1") 0 0 "all" false).1 =
      .fetchIssued ∧
    (loadStart (loadStart emptyCache "u1" (some "p1") 0 0 "all" false).2
        "u1" (some "p1") 0 0 "all" false).1 = .yielded := by
  have h := C7_cache_dedup_invalidate emptyCache "u1" "p1" 0 0 "all"
    "u1:p1:0:0:all" (by rfl) (by rfl) (by rfl)
  exact ⟨h.1, h.2.1⟩

/-- C9: at the failing input — external finalize applied to a paused row —
the route's payload omits `paused_at`, so the row ends with
`status = finished` while `paused_at` is still non-null, breaking the
"paused_at is non-null iff status == paused" invariant the claim says every
persisted transition preserves. -/
theorem C9_finalize_breaks_paused_at_invariant :
    C9row.status = .paused ∧ C9row.paused_at = some 5000 ∧
    (applyFinalize "t1" 9000 3000 C9row).status = .finished ∧
    (applyFinalize "t1" 9000 3000 C9row).paused_at = some 5000 := by
  decide

end TimeTracker
